import Mathlib

/-!
Shallow embedding of `src/eurobin_perception/visualization.py`.

The module contains four functions:
  * `load_class_color_map` — reads a YAML file and returns the parsed mapping;
  * `get_class_color` — looks a class name up in a color dict, falling back
    to a random color;
  * `annotate_image` — draws bounding boxes and translucent label chips on a
    copy of the input image via OpenCV primitives;
  * `view_image_cv` — shows the image in a window.

Modelling choices:
  * Pixels are BGR triples of rationals; an image is a function from integer
    coordinates to a pixel.  NumPy arrays have identity (in-place mutation by
    `cv2.rectangle`, `cv2.putText`, `cv2.addWeighted(dst=...)` matters), so we
    model a heap of arrays: a list of images addressed by index.  `np.copy`
    allocates a fresh index at the end of the heap.
  * External OpenCV primitives whose pixel-level behaviour the source does not
    determine (`cv2.rectangle`, `cv2.putText`, `cv2.getTextSize`) and the
    random generator `np.random.random` are parameters, bundled in `CvCtx`.
    `cv2.addWeighted` is modelled concretely (documented formula
    `dst = src1*alpha + src2*beta + gamma`, here without uint8 saturation).
  * Every OpenCV call made by `annotate_image` is also recorded in an event
    trace, so that claims about the arguments of those calls can be stated.
  * A Python dict of bounding-box fields is a record of `Option` fields
    (`none` = key absent); indexing a missing key is a `KeyError`.
-/

/-- A BGR pixel / color triple. -/
abbrev Color : Type := ℚ × ℚ × ℚ

/-- Pixel coordinates. -/
abbrev Pt : Type := Int × Int

/-- An image: pixel contents at every coordinate. -/
abbrev Image : Type := Pt → Color

/-- Content of an unallocated heap cell. -/
def defaultImage : Image := fun _ => (0, 0, 0)

/-- The heap of NumPy arrays: cell `i` holds the pixel contents of array `i`. -/
abbrev Heap : Type := List Image

/-- Read the array stored at index `i`. -/
def heapGet : Heap → Nat → Image
  | [], _ => defaultImage
  | img :: _, 0 => img
  | _ :: rest, n + 1 => heapGet rest n

/-- Overwrite the array stored at index `i` (in-place mutation). -/
def heapSet : Heap → Nat → Image → Heap
  | [], _, _ => []
  | _ :: rest, 0, img => img :: rest
  | old :: rest, n + 1, img => old :: heapSet rest n img

/-- Python `int()` applied to a rational: truncation toward zero. -/
def pyInt (q : ℚ) : Int := if 0 ≤ q then ⌊q⌋ else -⌊-q⌋

/-- Round to the nearest integer, ties to the even integer (the rounding used
by Python float formatting). -/
def roundHalfEven (q : ℚ) : Int :=
  if q - ⌊q⌋ < 1/2 then ⌊q⌋
  else if 1/2 < q - ⌊q⌋ then ⌊q⌋ + 1
  else if ⌊q⌋ % 2 = 0 then ⌊q⌋ else ⌊q⌋ + 1

/-- Python `'{:.2f}'.format(x)`: the number with exactly two decimal places. -/
def format2 (q : ℚ) : String :=
  let n : Int := roundHalfEven (q * 100)
  let sign := if n < 0 then "-" else ""
  let m := n.natAbs
  let frac := m % 100
  sign ++ toString (m / 100) ++ "." ++ (if frac < 10 then "0" else "") ++ toString frac

/-- `cv2.FONT_HERSHEY_PLAIN` (OpenCV enumeration value). -/
def cv2FONT_HERSHEY_PLAIN : Nat := 1

/-- `cv2.FONT_HERSHEY_SIMPLEX` (OpenCV enumeration value). -/
def cv2FONT_HERSHEY_SIMPLEX : Nat := 0

/-- `CV2_BBOX_FONT`: the module assigns `FONT_HERSHEY_PLAIN` and then
immediately rebinds to `FONT_HERSHEY_SIMPLEX`; this is the final value. -/
def CV2_BBOX_FONT : Nat := cv2FONT_HERSHEY_SIMPLEX

/-- `CV2_BBOX_FONT_SCALE`: first `1.0`, then rebound to `0.5`; final value. -/
def CV2_BBOX_FONT_SCALE : ℚ := 1/2

/-- Python exceptions that the embedded code can raise. -/
inductive PyErr : Type where
  | keyError (key : String)
  | ioError (msg : String)
  | yamlError (msg : String)
deriving DecidableEq, Repr

/-- `d[k]` on an optional field of a Python dict: the value when the key is
present, `KeyError` otherwise. -/
def getItem {α : Type} (field : Option α) (key : String) : Except PyErr α :=
  match field with
  | some v => Except.ok v
  | none => Except.error (PyErr.keyError key)

/-- One bounding-box dict (`class`, `xmin`, `ymin`, `xmax`, `ymax`,
`confidence`); a `none` field is an absent key.  The `confidence` key, when
present, holds either `None` (inner `none`) or a number. -/
structure BBoxDict : Type where
  className : Option String
  xmin : Option Int
  ymin : Option Int
  xmax : Option Int
  ymax : Option Int
  confidence : Option (Option ℚ)
deriving DecidableEq

/-- The external OpenCV primitives and the random generator that
`visualization.py` calls but does not define.  `rectangle img pt1 pt2 color t`
and `putText img s org color t` return the drawn-on image (the caller decides
which heap cell to store it in); `getTextSize s font scale t` returns
`((w, h), baseline)`; `rng i` is the `i`-th triple of unit-interval draws of
`np.random.random(3)`. -/
structure CvCtx : Type where
  rectangle : Image → Pt → Pt → Color → Int → Image
  putText : Image → String → Pt → Nat → ℚ → Color → Int → Image
  getTextSize : String → Nat → ℚ → Int → (Int × Int) × Int
  rng : Nat → ℚ × ℚ × ℚ

/-- `cv2.addWeighted(src1, alpha, src2, beta, gamma)`: the documented
pixel-wise formula `src1*alpha + src2*beta + gamma` (componentwise). -/
def cv2AddWeighted (src1 : Image) (alpha : ℚ) (src2 : Image) (beta : ℚ) (gamma : ℚ) : Image :=
  fun p =>
    (alpha * (src1 p).1 + beta * (src2 p).1 + gamma,
     alpha * (src1 p).2.1 + beta * (src2 p).2.1 + gamma,
     alpha * (src1 p).2.2 + beta * (src2 p).2.2 + gamma)

/-- One OpenCV drawing call made by `annotate_image`, with the heap index of
the array it is applied to and the arguments the source passes. -/
inductive CvEvent : Type where
  | rect (arrayId : Nat) (pt1 pt2 : Pt) (color : Color) (thickness : Int)
  | text (arrayId : Nat) (s : String) (org : Pt) (color : Color) (thickness : Int)
  | blend (src1Id : Nat) (alpha : ℚ) (src2Id : Nat) (beta : ℚ) (gamma : ℚ) (dstId : Nat)
deriving DecidableEq

/-- `get_class_color(class_colors_dict, class_str)`: the stored color on a
hit; on a `KeyError`, a warning is printed and `np.random.random(3) * 255.`
is returned, where `u` stands for the three unit-interval draws. -/
def get_class_color (class_colors_dict : List (String × Color)) (class_str : String)
    (u : ℚ × ℚ × ℚ) : Color :=
  match class_colors_dict.lookup class_str with
  | some c => c
  | none => (u.1 * 255, u.2.1 * 255, u.2.2 * 255)

/-- Lines 107–110 of the source: `label_str = label`, then
`label_str += ': {:.2f}%'.format(float(confidence))` when the confidence is
not `None`. -/
def labelStrOf (label : String) (confidence : Option ℚ) : String :=
  match confidence with
  | none => label
  | some c => label ++ ": " ++ format2 c ++ "%"

/-- The drawing part of the `for bbox in bboxes` loop body of
`annotate_image` (after the six dict lookups succeeded), acting on heap cell
`annId`, which holds `image_annotated`.  `i` numbers the loop iteration (it
indexes the random stream).  `image_overlay` is a fresh array (`np.copy`), so
it is allocated at the end of the heap (`ovId`; in-place writes do not change
the heap's length, so this is `heap.length`).  Returns the new heap and the
list of OpenCV calls made. -/
def bboxStep (ctx : CvCtx) (class_colors_dict : List (String × Color)) (heap : Heap)
    (annId : Nat) (label : String) (xmin ymin xmax ymax : Int) (confidence : Option ℚ)
    (i : Nat) : Heap × List CvEvent :=
  let color := get_class_color class_colors_dict label (ctx.rng i)
  -- Draw bbox rectangle (in place on image_annotated):
  let heap1 := heapSet heap annId
    (ctx.rectangle (heapGet heap annId) (xmin, ymin) (xmax, ymax) color 2)
  -- Construct label text:
  let label_str := labelStrOf label confidence
  -- Estimate area of label box:
  let ts := ctx.getTextSize label_str CV2_BBOX_FONT CV2_BBOX_FONT_SCALE 1
  let w := ts.1.1
  let h := ts.1.2
  -- Draw faded label box and text on a fresh copy (image_overlay):
  let ovId := heap.length
  let heap2 := heap1 ++ [heapGet heap1 annId]
  let heap3 := heapSet heap2 ovId
    (ctx.rectangle (heapGet heap2 ovId)
      (xmin, ymin - pyInt ((h : ℚ) * (3/2))) (xmin + w, ymin) color (-1))
  let heap4 := heapSet heap3 ovId
    (ctx.putText (heapGet heap3 ovId) label_str (xmin, ymin - 5)
      CV2_BBOX_FONT CV2_BBOX_FONT_SCALE (255, 255, 255) 1)
  -- alpha = 0.5; cv2.addWeighted writes into image_annotated (dst):
  let alpha : ℚ := 1/2
  let heap5 := heapSet heap4 annId
    (cv2AddWeighted (heapGet heap4 ovId) alpha (heapGet heap4 annId) (1 - alpha) 0)
  (heap5,
    [CvEvent.rect annId (xmin, ymin) (xmax, ymax) color 2,
     CvEvent.rect ovId (xmin, ymin - pyInt ((h : ℚ) * (3/2))) (xmin + w, ymin) color (-1),
     CvEvent.text ovId label_str (xmin, ymin - 5) (255, 255, 255) 1,
     CvEvent.blend ovId alpha annId (1 - alpha) 0 annId])

/-- The full `for bbox in bboxes` loop body: the dict indexings
`bbox['class']`, `bbox['xmin']`, `bbox['ymin']`, `bbox['xmax']`,
`bbox['ymax']`, `bbox['confidence']` in the order the Python evaluates them
(each raising `KeyError` when absent), then the drawing calls. -/
def processBBox (ctx : CvCtx) (class_colors_dict : List (String × Color)) (heap : Heap)
    (annId : Nat) (bbox : BBoxDict) (i : Nat) : Except PyErr (Heap × List CvEvent) :=
  match bbox.className with
  | none => Except.error (PyErr.keyError "class")
  | some label =>
    match bbox.xmin with
    | none => Except.error (PyErr.keyError "xmin")
    | some xmin =>
      match bbox.ymin with
      | none => Except.error (PyErr.keyError "ymin")
      | some ymin =>
        match bbox.xmax with
        | none => Except.error (PyErr.keyError "xmax")
        | some xmax =>
          match bbox.ymax with
          | none => Except.error (PyErr.keyError "ymax")
          | some ymax =>
            match bbox.confidence with
            | none => Except.error (PyErr.keyError "confidence")
            | some confidence =>
              Except.ok (bboxStep ctx class_colors_dict heap annId label
                xmin ymin xmax ymax confidence i)

/-- The `for bbox in bboxes` loop of `annotate_image`; an exception raised by
an iteration aborts the loop and propagates. -/
def annotateLoop (ctx : CvCtx) (class_colors_dict : List (String × Color)) :
    List BBoxDict → Nat → Heap → Nat → Except PyErr (Heap × List CvEvent)
  | [], _, heap, _ => Except.ok (heap, [])
  | bbox :: rest, i, heap, annId =>
    match processBBox ctx class_colors_dict heap annId bbox i with
    | Except.error e => Except.error e
    | Except.ok (heap', evs) =>
      match annotateLoop ctx class_colors_dict rest (i + 1) heap' annId with
      | Except.error e => Except.error e
      | Except.ok (heap'', evs') => Except.ok (heap'', evs ++ evs')

/-- `annotate_image(image, bboxes, class_colors_dict)`: copies the input array
(`image_annotated = np.copy(image)`, a fresh allocation at the end of the
heap), then runs the per-bbox loop on the copy.  The input array lives at heap
index `imgId`; on success the result is the final heap, the heap index of
`image_annotated`, and the trace of OpenCV calls. -/
def annotate_image (ctx : CvCtx) (heap : Heap) (imgId : Nat) (bboxes : List BBoxDict)
    (class_colors_dict : List (String × Color)) :
    Except PyErr (Heap × Nat × List CvEvent) :=
  match annotateLoop ctx class_colors_dict bboxes 0 (heap ++ [heapGet heap imgId])
      heap.length with
  | Except.error e => Except.error e
  | Except.ok (heap', evs) => Except.ok (heap', heap.length, evs)

/-- The OpenCV call trace of an `annotate_image` run (empty on an exception). -/
def traceOf (r : Except PyErr (Heap × Nat × List CvEvent)) : List CvEvent :=
  match r with
  | Except.ok (_, _, evs) => evs
  | Except.error _ => []

/-- GUI side effects of `view_image_cv`. -/
inductive UiEvent : Type where
  | imshow (windowTitle : String) (arrayId : Nat)
  | waitKey
  | destroyAllWindows
deriving DecidableEq

/-- `view_image_cv(image, window_title='')`: shows the window, blocks for a
key press, closes all windows; no `return` statement, so the Python value of
the call is `None` (modelled as the `none` of an `Option`).  The parameter
`window_title` defaults to `""` in the source. -/
def view_image_cv (image : Nat) (window_title : String) :
    List UiEvent × Option Unit :=
  ([UiEvent.imshow window_title image, UiEvent.waitKey, UiEvent.destroyAllWindows], none)

/-- A parsed YAML document (`yaml.safe_load` output): scalars, sequences and
mappings; mapping keys are themselves YAML values. -/
inductive Yaml : Type where
  | yStr (s : String)
  | yNum (q : ℚ)
  | yNull
  | ySeq (items : List Yaml)
  | yMap (entries : List (Yaml × Yaml))

/-- `load_class_color_map(class_colors_config_file_path)`: opens the file and
returns `yaml.safe_load` of its contents, unchanged.  `fileRead` models
`open(path).read()` (which can raise an I/O error) and `safe_load` models the
YAML parser (which can raise a parse error); both are external. -/
def load_class_color_map (fileRead : String → Except PyErr String)
    (safe_load : String → Except PyErr Yaml)
    (class_colors_config_file_path : String) : Except PyErr Yaml :=
  match fileRead class_colors_config_file_path with
  | Except.error e => Except.error e
  | Except.ok contents =>
    match safe_load contents with
    | Except.error e => Except.error e
    | Except.ok class_colors_dict => Except.ok class_colors_dict

/-- Is this YAML value a list of three numbers, each in `[0, 255]`? -/
def isColorTriple : Yaml → Bool
  | Yaml.ySeq [Yaml.yNum r, Yaml.yNum g, Yaml.yNum b] =>
      decide (0 ≤ r) && decide (r ≤ 255) && decide (0 ≤ g) && decide (g ≤ 255) &&
      decide (0 ≤ b) && decide (b ≤ 255)
  | _ => false

/-- Is this YAML value a key for a class name, i.e. text? -/
def isTextKey : Yaml → Bool
  | Yaml.yStr _ => true
  | _ => false

/-- A well-formed class-colors document: a mapping whose keys are text and
whose values are RGB triples in `[0, 255]`. -/
def wellFormedColorMap : Yaml → Bool
  | Yaml.yMap entries => entries.all fun e => isTextKey e.1 && isColorTriple e.2
  | _ => false

/-- Does this bbox dict lack one of the six keys `annotate_image` indexes? -/
def missingRequiredKey (b : BBoxDict) : Bool :=
  b.className.isNone || b.xmin.isNone || b.ymin.isNone ||
  b.xmax.isNone || b.ymax.isNone || b.confidence.isNone

/-- Did the computation abort with a `KeyError`? -/
def isKeyError {α : Type} : Except PyErr α → Bool
  | Except.error (PyErr.keyError _) => true
  | _ => false

/-- A sample implementation of the external OpenCV primitives, used to
evaluate the theorems on concrete inputs: rectangles fill their bounding
region, text rendering keeps the pixels, the text footprint is ten pixels per
character by ten pixels high, and the random stream is constant. -/
def ctxEx : CvCtx where
  rectangle := fun img pt1 pt2 c _ => fun q =>
    if pt1.1 ≤ q.1 ∧ q.1 ≤ pt2.1 ∧ pt1.2 ≤ q.2 ∧ q.2 ≤ pt2.2 then c else img q
  putText := fun img _ _ _ _ _ _ => img
  getTextSize := fun s _ _ _ => ((10 * (s.length : Int), 10), 3)
  rng := fun _ => (1/4, 1/2, 3/4)

/-- A concrete sample image. -/
def imgEx : Image := fun _ => (7, 8, 9)

/-- A sample bounding box with all six keys present (`confidence` holds
`None`). -/
def bbEx : BBoxDict :=
  { className := some "cup", xmin := some 2, ymin := some 20,
    xmax := some 12, ymax := some 40, confidence := some none }

/-- A sample class-color mapping. -/
def dictEx : List (String × Color) := [("cup", (10, 20, 30))]

/-! ### Heap lemmas -/

theorem heapSet_length (h : Heap) (i : Nat) (img : Image) :
    (heapSet h i img).length = h.length := by
  induction h generalizing i with
  | nil => rfl
  | cons a t ih =>
    cases i with
    | zero => rfl
    | succ n => simpa [heapSet] using ih n

theorem heapGet_heapSet_ne (h : Heap) (i j : Nat) (img : Image) (hne : j ≠ i) :
    heapGet (heapSet h i img) j = heapGet h j := by
  induction h generalizing i j with
  | nil => rfl
  | cons a t ih =>
    cases i with
    | zero =>
      cases j with
      | zero => exact absurd rfl hne
      | succ m => rfl
    | succ n =>
      cases j with
      | zero => rfl
      | succ m =>
        simpa [heapSet, heapGet] using ih n m (fun hh => hne (by rw [hh]))

theorem heapGet_append_lt (h l : Heap) (j : Nat) (hj : j < h.length) :
    heapGet (h ++ l) j = heapGet h j := by
  induction h generalizing j with
  | nil => exact absurd hj (by simp)
  | cons a t ih =>
    cases j with
    | zero => rfl
    | succ m => simpa [heapGet] using ih m (by simpa using hj)

theorem heapGet_append_len (h : Heap) (img : Image) :
    heapGet (h ++ [img]) h.length = img := by
  induction h with
  | nil => rfl
  | cons a t ih => simpa [heapGet] using ih

/-! ### Characterization of the loop body -/

theorem bboxStep_fst_length (ctx : CvCtx) (dict : List (String × Color)) (heap : Heap)
    (annId : Nat) (lbl : String) (x1 y1 x2 y2 : Int) (conf : Option ℚ) (i : Nat) :
    (bboxStep ctx dict heap annId lbl x1 y1 x2 y2 conf i).1.length = heap.length + 1 := by
  simp [bboxStep, heapSet_length, List.length_append]

theorem bboxStep_preserve (ctx : CvCtx) (dict : List (String × Color)) (heap : Heap)
    (annId : Nat) (lbl : String) (x1 y1 x2 y2 : Int) (conf : Option ℚ) (i : Nat)
    (j : Nat) (hja : j ≠ annId) (hj : j < heap.length) :
    heapGet (bboxStep ctx dict heap annId lbl x1 y1 x2 y2 conf i).1 j = heapGet heap j := by
  have hlen1 : j < (heapSet heap annId
      (ctx.rectangle (heapGet heap annId) (x1, y1) (x2, y2)
        (get_class_color dict lbl (ctx.rng i)) 2)).length := by
    rw [heapSet_length]; exact hj
  have hjo : j ≠ heap.length := Nat.ne_of_lt hj
  simp only [bboxStep]
  rw [heapGet_heapSet_ne _ _ _ _ hja]
  rw [heapGet_heapSet_ne _ _ _ _ hjo]
  rw [heapGet_heapSet_ne _ _ _ _ hjo]
  rw [heapGet_append_lt _ _ _ hlen1]
  rw [heapGet_heapSet_ne _ _ _ _ hja]

theorem bboxStep_snd (ctx : CvCtx) (dict : List (String × Color)) (heap : Heap)
    (annId : Nat) (lbl : String) (x1 y1 x2 y2 : Int) (conf : Option ℚ) (i : Nat) :
    (bboxStep ctx dict heap annId lbl x1 y1 x2 y2 conf i).2 =
      [CvEvent.rect annId (x1, y1) (x2, y2) (get_class_color dict lbl (ctx.rng i)) 2,
       CvEvent.rect heap.length
         (x1, y1 - pyInt
           (((ctx.getTextSize (labelStrOf lbl conf) CV2_BBOX_FONT CV2_BBOX_FONT_SCALE 1).1.2 : ℚ)
             * (3/2)))
         (x1 + (ctx.getTextSize (labelStrOf lbl conf) CV2_BBOX_FONT CV2_BBOX_FONT_SCALE 1).1.1,
          y1)
         (get_class_color dict lbl (ctx.rng i)) (-1),
       CvEvent.text heap.length (labelStrOf lbl conf) (x1, y1 - 5) (255, 255, 255) 1,
       CvEvent.blend heap.length (1/2) annId (1 - 1/2) 0 annId] := rfl

theorem processBBox_ok_inv (ctx : CvCtx) (dict : List (String × Color)) (heap : Heap)
    (annId : Nat) (bbox : BBoxDict) (i : Nat) (r : Heap × List CvEvent)
    (hok : processBBox ctx dict heap annId bbox i = Except.ok r) :
    ∃ lbl x1 y1 x2 y2 conf,
      bbox.className = some lbl ∧ bbox.xmin = some x1 ∧ bbox.ymin = some y1 ∧
      bbox.xmax = some x2 ∧ bbox.ymax = some y2 ∧ bbox.confidence = some conf ∧
      r = bboxStep ctx dict heap annId lbl x1 y1 x2 y2 conf i := by
  obtain ⟨cn, xn, yn, x2n, y2n, cf⟩ := bbox
  cases cn with
  | none => exact absurd hok (by simp [processBBox])
  | some lbl =>
    cases xn with
    | none => exact absurd hok (by simp [processBBox])
    | some x1 =>
      cases yn with
      | none => exact absurd hok (by simp [processBBox])
      | some y1 =>
        cases x2n with
        | none => exact absurd hok (by simp [processBBox])
        | some x2 =>
          cases y2n with
          | none => exact absurd hok (by simp [processBBox])
          | some y2 =>
            cases cf with
            | none => exact absurd hok (by simp [processBBox])
            | some conf =>
              refine ⟨lbl, x1, y1, x2, y2, conf, rfl, rfl, rfl, rfl, rfl, rfl, ?_⟩
              have := hok
              simp only [processBBox, Except.ok.injEq] at this
              exact this.symm

theorem processBBox_err_of_missing (ctx : CvCtx) (dict : List (String × Color)) (heap : Heap)
    (annId : Nat) (bbox : BBoxDict) (i : Nat)
    (hmiss : missingRequiredKey bbox = true) :
    ∃ k, processBBox ctx dict heap annId bbox i = Except.error (PyErr.keyError k) := by
  obtain ⟨cn, xn, yn, x2n, y2n, cf⟩ := bbox
  cases cn with
  | none => exact ⟨"class", rfl⟩
  | some lbl =>
    cases xn with
    | none => exact ⟨"xmin", rfl⟩
    | some x1 =>
      cases yn with
      | none => exact ⟨"ymin", rfl⟩
      | some y1 =>
        cases x2n with
        | none => exact ⟨"xmax", rfl⟩
        | some x2 =>
          cases y2n with
          | none => exact ⟨"ymax", rfl⟩
          | some y2 =>
            cases cf with
            | none => exact ⟨"confidence", rfl⟩
            | some conf => exact absurd hmiss (by simp [missingRequiredKey])

theorem not_missing_keys (bbox : BBoxDict) (hmiss : missingRequiredKey bbox = false) :
    ∃ lbl x1 y1 x2 y2 conf,
      bbox.className = some lbl ∧ bbox.xmin = some x1 ∧ bbox.ymin = some y1 ∧
      bbox.xmax = some x2 ∧ bbox.ymax = some y2 ∧ bbox.confidence = some conf := by
  obtain ⟨cn, xn, yn, x2n, y2n, cf⟩ := bbox
  simp only [missingRequiredKey, Bool.or_eq_false_iff, Option.isNone_eq_false_iff,
    Option.isSome_iff_exists] at hmiss
  obtain ⟨⟨⟨⟨⟨⟨lbl, h1⟩, x1, h2⟩, y1, h3⟩, x2, h4⟩, y2, h5⟩, conf, h6⟩ := hmiss
  exact ⟨lbl, x1, y1, x2, y2, conf, h1, h2, h3, h4, h5, h6⟩

/-! ### Loop invariants -/

theorem annotateLoop_heap (ctx : CvCtx) (dict : List (String × Color)) (bs : List BBoxDict) :
    ∀ (i : Nat) (heap : Heap) (annId : Nat) (h' : Heap) (evs : List CvEvent),
      annotateLoop ctx dict bs i heap annId = Except.ok (h', evs) →
      heap.length ≤ h'.length ∧
      ∀ j, j ≠ annId → j < heap.length → heapGet h' j = heapGet heap j := by
  induction bs with
  | nil =>
    intro i heap annId h' evs hok
    simp only [annotateLoop, Except.ok.injEq, Prod.mk.injEq] at hok
    rw [← hok.1]
    exact ⟨Nat.le_refl _, fun j _ _ => rfl⟩
  | cons b rest ih =>
    intro i heap annId h' evs hok
    rw [annotateLoop] at hok
    rcases hP : processBBox ctx dict heap annId b i with e | r
    · rw [hP] at hok; exact absurd hok (by simp)
    · rw [hP] at hok
      obtain ⟨heapA, evsA⟩ := r
      dsimp only at hok
      rcases hL : annotateLoop ctx dict rest (i + 1) heapA annId with e2 | r2
      · rw [hL] at hok; exact absurd hok (by simp)
      · rw [hL] at hok
        obtain ⟨heapB, evsB⟩ := r2
        dsimp only at hok
        simp only [Except.ok.injEq, Prod.mk.injEq] at hok
        obtain ⟨lbl, x1, y1, x2, y2, conf, _, _, _, _, _, _, hr⟩ :=
          processBBox_ok_inv ctx dict heap annId b i _ hP
        have hAlen : heapA.length = heap.length + 1 := by
          have := bboxStep_fst_length ctx dict heap annId lbl x1 y1 x2 y2 conf i
          rw [← hr] at this
          exact this
        obtain ⟨hle, hpres⟩ := ih (i + 1) heapA annId heapB evsB hL
        obtain ⟨hokh, -⟩ := hok
        subst hokh
        constructor
        · calc heap.length ≤ heapA.length := by omega
            _ ≤ heapB.length := hle
        · intro j hja hj
          have hjA : j < heapA.length := by omega
          rw [hpres j hja hjA]
          have : heapGet heapA j = heapGet heap j := by
            have := bboxStep_preserve ctx dict heap annId lbl x1 y1 x2 y2 conf i j hja hj
            rw [← hr] at this
            exact this
          exact this

theorem annotateLoop_trace (ctx : CvCtx) (dict : List (String × Color)) (bs : List BBoxDict) :
    ∀ (i : Nat) (heap : Heap) (annId : Nat) (h' : Heap) (evs : List CvEvent),
      annotateLoop ctx dict bs i heap annId = Except.ok (h', evs) →
      ∀ e ∈ evs, ∃ b ∈ bs, ∃ (heap0 : Heap) (j : Nat) (r : Heap × List CvEvent),
        processBBox ctx dict heap0 annId b j = Except.ok r ∧ e ∈ r.2 := by
  induction bs with
  | nil =>
    intro i heap annId h' evs hok
    simp only [annotateLoop, Except.ok.injEq, Prod.mk.injEq] at hok
    rw [← hok.2]
    intro e he
    exact absurd he (by simp)
  | cons b rest ih =>
    intro i heap annId h' evs hok
    rw [annotateLoop] at hok
    rcases hP : processBBox ctx dict heap annId b i with e0 | r
    · rw [hP] at hok; exact absurd hok (by simp)
    · rw [hP] at hok
      obtain ⟨heapA, evsA⟩ := r
      dsimp only at hok
      rcases hL : annotateLoop ctx dict rest (i + 1) heapA annId with e2 | r2
      · rw [hL] at hok; exact absurd hok (by simp)
      · rw [hL] at hok
        obtain ⟨heapB, evsB⟩ := r2
        dsimp only at hok
        cases hok
        intro e he
        rcases List.mem_append.mp he with hA | hB
        · exact ⟨b, List.mem_cons_self b rest, heap, i, (heapA, evsA), hP, hA⟩
        · obtain ⟨b', hb', heap0, j, r, hr, her⟩ :=
            ih (i + 1) heapA annId _ evsB hL e hB
          exact ⟨b', List.mem_cons_of_mem b hb', heap0, j, r, hr, her⟩

theorem annotateLoop_keyError (ctx : CvCtx) (dict : List (String × Color)) (bs : List BBoxDict) :
    ∀ (i : Nat) (heap : Heap) (annId : Nat),
      (∃ b ∈ bs, missingRequiredKey b = true) →
      ∃ k, annotateLoop ctx dict bs i heap annId = Except.error (PyErr.keyError k) := by
  induction bs with
  | nil =>
    intro i heap annId hmiss
    obtain ⟨b, hb, -⟩ := hmiss
    exact absurd hb (by simp)
  | cons b rest ih =>
    intro i heap annId hmiss
    rcases hmb : missingRequiredKey b with hf | ht
    · -- the head bbox has all six keys: the loop body succeeds and recurses
      obtain ⟨lbl, x1, y1, x2, y2, conf, h1, h2, h3, h4, h5, h6⟩ := not_missing_keys b hmb
      have hP : processBBox ctx dict heap annId b i =
          Except.ok (bboxStep ctx dict heap annId lbl x1 y1 x2 y2 conf i) := by
        simp [processBBox, h1, h2, h3, h4, h5, h6]
      have hrest : ∃ b' ∈ rest, missingRequiredKey b' = true := by
        obtain ⟨b', hb', hmb'⟩ := hmiss
        rcases List.mem_cons.mp hb' with heq | hmem
        · rw [heq] at hmb'; rw [hmb'] at hmb; exact absurd hmb (by simp)
        · exact ⟨b', hmem, hmb'⟩
      obtain ⟨k, hk⟩ :=
        ih (i + 1) (bboxStep ctx dict heap annId lbl x1 y1 x2 y2 conf i).1 annId hrest
      refine ⟨k, ?_⟩
      rw [annotateLoop, hP]
      dsimp only
      rw [hk]
    · obtain ⟨k, hk⟩ := processBBox_err_of_missing ctx dict heap annId b i hmb
      refine ⟨k, ?_⟩
      rw [annotateLoop, hk]

theorem pyInt_nonneg (q : ℚ) (hq : 0 ≤ q) : 0 ≤ pyInt q := by
  rw [pyInt, if_pos hq]
  exact Int.floor_nonneg.mpr hq

theorem annotate_trace_mem (ctx : CvCtx) (heap : Heap) (imgId : Nat)
    (bboxes : List BBoxDict) (dict : List (String × Color)) (e : CvEvent)
    (he : e ∈ traceOf (annotate_image ctx heap imgId bboxes dict)) :
    ∃ b ∈ bboxes, ∃ (heap0 : Heap) (j : Nat) (r : Heap × List CvEvent),
      processBBox ctx dict heap0 heap.length b j = Except.ok r ∧ e ∈ r.2 := by
  unfold annotate_image traceOf at he
  rcases hL : annotateLoop ctx dict bboxes 0 (heap ++ [heapGet heap imgId])
      heap.length with e0 | r
  · rw [hL] at he; exact absurd he (by simp)
  · rw [hL] at he
    obtain ⟨h', evs⟩ := r
    dsimp only at he
    exact annotateLoop_trace ctx dict bboxes 0 _ heap.length h' evs hL e he

/-! ### Claim theorems -/

/-- C8: `view_image_cv` has no return value: for every image and window
title it returns `None`, and its only effect is to show the window, block
until a key press (`waitKey`), and close all windows. -/
theorem view_image_cv_returns_none (image : Nat) (window_title : String) :
    (view_image_cv image window_title).2 = none ∧
    (view_image_cv image window_title).1 =
      [UiEvent.imshow window_title image, UiEvent.waitKey, UiEvent.destroyAllWindows] :=
  ⟨rfl, rfl⟩

/-- C9: `annotate_image` applied to an empty list of bounding boxes is the
identity on pixel content: for every image and any class-color mapping, it
succeeds, makes no drawing call, and the returned array's pixel content
equals that of the input array. -/
theorem annotate_image_empty_bboxes_identity (ctx : CvCtx) (heap : Heap) (imgId : Nat)
    (class_colors_dict : List (String × Color)) :
    annotate_image ctx heap imgId [] class_colors_dict =
      Except.ok (heap ++ [heapGet heap imgId], heap.length, []) ∧
    heapGet (heap ++ [heapGet heap imgId]) heap.length = heapGet heap imgId :=
  ⟨rfl, heapGet_append_len heap _⟩

/-- C1: `annotate_image` never mutates its input image: after a successful
call, the array at the input's heap index has its original pixel content,
and the returned annotated image is a distinct array (a different index). -/
theorem annotate_image_no_input_mutation (ctx : CvCtx) (heap : Heap) (imgId : Nat)
    (bboxes : List BBoxDict) (class_colors_dict : List (String × Color))
    (h' : Heap) (outId : Nat) (tr : List CvEvent)
    (hv : imgId < heap.length)
    (hok : annotate_image ctx heap imgId bboxes class_colors_dict =
      Except.ok (h', outId, tr)) :
    heapGet h' imgId = heapGet heap imgId ∧ outId ≠ imgId := by
  unfold annotate_image at hok
  rcases hL : annotateLoop ctx class_colors_dict bboxes 0
      (heap ++ [heapGet heap imgId]) heap.length with e0 | r
  · rw [hL] at hok; exact absurd hok (by simp)
  · rw [hL] at hok
    obtain ⟨heapF, evs⟩ := r
    dsimp only at hok
    cases hok
    obtain ⟨-, hpres⟩ := annotateLoop_heap ctx class_colors_dict bboxes 0
      (heap ++ [heapGet heap imgId]) heap.length _ _ hL
    have hne : imgId ≠ heap.length := Nat.ne_of_lt hv
    have hlt : imgId < (heap ++ [heapGet heap imgId]).length := by
      simp only [List.length_append, List.length_cons, List.length_nil]
      omega
    refine ⟨?_, fun hcontra => hne hcontra.symm⟩
    rw [hpres imgId hne hlt, heapGet_append_lt heap _ imgId hv]

/-- Witness for C1 at a concrete input (one bounding box with all keys). -/
theorem annotate_image_no_input_mutation_witness :
    heapGet (bboxStep ctxEx dictEx [imgEx, imgEx] 1 "cup" 2 20 12 40 none 0).1 0 =
      heapGet [imgEx] 0 ∧ (1 : Nat) ≠ 0 :=
  annotate_image_no_input_mutation ctxEx [imgEx] 0 [bbEx] dictEx
    (bboxStep ctxEx dictEx [imgEx, imgEx] 1 "cup" 2 20 12 40 none 0).1 1
    (bboxStep ctxEx dictEx [imgEx, imgEx] 1 "cup" 2 20 12 40 none 0).2
    (by decide) rfl

/-- C10: `annotate_image` requires every bounding-box dict to contain the
keys `class`, `xmin`, `ymin`, `xmax`, `ymax` and `confidence`: whenever some
bbox in the list lacks one of them, the call raises a `KeyError` (an omitted
confidence must be present as the explicit value `None` to count as
present). -/
theorem annotate_image_requires_keys (ctx : CvCtx) (heap : Heap) (imgId : Nat)
    (bboxes : List BBoxDict) (class_colors_dict : List (String × Color))
    (hmiss : ∃ b ∈ bboxes, missingRequiredKey b = true) :
    isKeyError (annotate_image ctx heap imgId bboxes class_colors_dict) = true := by
  obtain ⟨k, hk⟩ := annotateLoop_keyError ctx class_colors_dict bboxes 0
    (heap ++ [heapGet heap imgId]) heap.length hmiss
  unfold annotate_image
  rw [hk]
  rfl

/-- A sample bounding box whose `xmin` key is absent. -/
def bbMissingEx : BBoxDict :=
  { className := some "cup", xmin := none, ymin := some 20,
    xmax := some 12, ymax := some 40, confidence := some none }

/-- Witness for C10 at a concrete input (a bbox lacking `xmin`). -/
theorem annotate_image_requires_keys_witness :
    isKeyError (annotate_image ctxEx [imgEx] 0 [bbMissingEx] dictEx) = true :=
  annotate_image_requires_keys ctxEx [imgEx] 0 [bbMissingEx] dictEx
    ⟨bbMissingEx, List.mem_cons_self bbMissingEx [], rfl⟩

/-- C2: every label chip composited by `annotate_image` uses the fixed
blending coefficient `alpha = 0.5`: each `cv2.addWeighted` call in the trace
has `alpha = 1/2`, `beta = 1 - alpha`, `gamma = 0`, and with those
coefficients the blended value at every pixel is
`alpha*overlay + (1-alpha)*base`. -/
theorem annotate_image_alpha_blend_half (ctx : CvCtx) (heap : Heap) (imgId : Nat)
    (bboxes : List BBoxDict) (class_colors_dict : List (String × Color))
    (e : CvEvent) (sid : Nat) (al : ℚ) (s2id : Nat) (be : ℚ) (ga : ℚ) (did : Nat)
    (he : e ∈ traceOf (annotate_image ctx heap imgId bboxes class_colors_dict))
    (heq : e = CvEvent.blend sid al s2id be ga did) :
    (al = 1/2 ∧ be = 1 - al ∧ ga = 0) ∧
    ∀ (overlay base : Image) (p : Pt),
      cv2AddWeighted overlay al base be ga p =
        (al * (overlay p).1 + (1 - al) * (base p).1,
         al * (overlay p).2.1 + (1 - al) * (base p).2.1,
         al * (overlay p).2.2 + (1 - al) * (base p).2.2) := by
  subst heq
  obtain ⟨b, hb, heap0, j, r, hok, hmem⟩ :=
    annotate_trace_mem ctx heap imgId bboxes class_colors_dict _ he
  obtain ⟨lbl, x1, y1, x2, y2, conf, -, -, -, -, -, -, hr⟩ :=
    processBBox_ok_inv ctx class_colors_dict heap0 heap.length b j r hok
  subst hr
  rw [bboxStep_snd] at hmem
  simp only [List.mem_cons, List.not_mem_nil, or_false] at hmem
  rcases hmem with h1 | h2 | h3 | h4
  · exact absurd h1 (by simp)
  · exact absurd h2 (by simp)
  · exact absurd h3 (by simp)
  · simp only [CvEvent.blend.injEq] at h4
    obtain ⟨-, hal, -, hbe, hga, -⟩ := h4
    subst hal hbe hga
    refine ⟨⟨rfl, rfl, rfl⟩, ?_⟩
    intro overlay base p
    simp [cv2AddWeighted]

/-- Evaluation of the OpenCV-call trace of `annotate_image` on the sample
input: the box rectangle, the filled chip rectangle, the label text and the
blend, with the chip spanning `(2, 20 - 15)`–`(2 + 30, 20)` since the label
"cup" measures 30 × 10 pixels under `ctxEx`. -/
theorem traceEx_eval : traceOf (annotate_image ctxEx [imgEx] 0 [bbEx] dictEx) =
    [CvEvent.rect 1 (2, 20) (12, 40) (10, 20, 30) 2,
     CvEvent.rect 2 (2, 5) (32, 20) (10, 20, 30) (-1),
     CvEvent.text 2 "cup" (2, 15) (255, 255, 255) 1,
     CvEvent.blend 2 (1/2) 1 (1 - 1/2) 0 1] := by
  simp only [traceOf, annotate_image, annotateLoop, processBBox, bboxStep, bbEx, ctxEx,
    dictEx, imgEx, get_class_color, labelStrOf, heapSet, heapGet, pyInt,
    CV2_BBOX_FONT, CV2_BBOX_FONT_SCALE, cv2FONT_HERSHEY_SIMPLEX, List.lookup]
  norm_num [show "cup".length = 3 from rfl]

/-- Witness for C2 at a concrete input (the blend call of one bbox). -/
theorem annotate_image_alpha_blend_half_witness :
    (((1:ℚ)/2 = 1/2) ∧ ((1:ℚ) - 1/2 = 1 - (1/2)) ∧ ((0:ℚ) = 0)) ∧
    ∀ (overlay base : Image) (p : Pt),
      cv2AddWeighted overlay (1/2) base (1 - 1/2) 0 p =
        ((1/2) * (overlay p).1 + (1 - (1/2)) * (base p).1,
         (1/2) * (overlay p).2.1 + (1 - (1/2)) * (base p).2.1,
         (1/2) * (overlay p).2.2 + (1 - (1/2)) * (base p).2.2) :=
  annotate_image_alpha_blend_half ctxEx [imgEx] 0 [bbEx] dictEx
    (CvEvent.blend 2 (1/2) 1 (1 - 1/2) 0 1) 2 (1/2) 1 (1 - 1/2) 0 1
    (by rw [traceEx_eval]; simp) rfl

/-- C6: every filled label-background rectangle drawn by `annotate_image`
spans from `(xmin, ymin - int(1.5*h))` to `(xmin + w, ymin)`, where `(w, h)`
is the measured pixel footprint of the bbox's label text; hence (for a
nonnegative text height) the chip lies on or above the box's top edge
`ymin`. -/
theorem annotate_image_label_chip_above_box (ctx : CvCtx) (heap : Heap) (imgId : Nat)
    (bboxes : List BBoxDict) (class_colors_dict : List (String × Color))
    (e : CvEvent) (aid : Nat) (pt1 pt2 : Pt) (c : Color)
    (he : e ∈ traceOf (annotate_image ctx heap imgId bboxes class_colors_dict))
    (heq : e = CvEvent.rect aid pt1 pt2 c (-1)) :
    ∃ b ∈ bboxes, ∃ lbl conf x1 y1,
      b.className = some lbl ∧ b.confidence = some conf ∧
      b.xmin = some x1 ∧ b.ymin = some y1 ∧
      pt1 = (x1, y1 - pyInt
        (((ctx.getTextSize (labelStrOf lbl conf)
            CV2_BBOX_FONT CV2_BBOX_FONT_SCALE 1).1.2 : ℚ) * (3/2))) ∧
      pt2 = (x1 + (ctx.getTextSize (labelStrOf lbl conf)
            CV2_BBOX_FONT CV2_BBOX_FONT_SCALE 1).1.1, y1) ∧
      (0 ≤ (ctx.getTextSize (labelStrOf lbl conf)
            CV2_BBOX_FONT CV2_BBOX_FONT_SCALE 1).1.2 → pt1.2 ≤ y1) := by
  subst heq
  obtain ⟨b, hb, heap0, j, r, hok, hmem⟩ :=
    annotate_trace_mem ctx heap imgId bboxes class_colors_dict _ he
  obtain ⟨lbl, x1, y1, x2, y2, conf, hcn, hx1f, hy1f, hx2f, hy2f, hcf, hr⟩ :=
    processBBox_ok_inv ctx class_colors_dict heap0 heap.length b j r hok
  subst hr
  rw [bboxStep_snd] at hmem
  simp only [List.mem_cons, List.not_mem_nil, or_false] at hmem
  rcases hmem with h1 | h2 | h3 | h4
  · simp only [CvEvent.rect.injEq] at h1
    exact absurd h1.2.2.2.2 (by decide)
  · simp only [CvEvent.rect.injEq] at h2
    obtain ⟨-, hpt1, hpt2, -, -⟩ := h2
    refine ⟨b, hb, lbl, conf, x1, y1, hcn, hcf, hx1f, hy1f, hpt1, hpt2, ?_⟩
    intro hh
    have hq : (0:ℚ) ≤ ((ctx.getTextSize (labelStrOf lbl conf)
        CV2_BBOX_FONT CV2_BBOX_FONT_SCALE 1).1.2 : ℚ) * (3/2) :=
      mul_nonneg (Int.cast_nonneg.mpr hh) (by norm_num)
    have hpy := pyInt_nonneg _ hq
    rw [hpt1]
    simp only
    omega
  · exact absurd h3 (by simp)
  · exact absurd h4 (by simp)

/-- Witness for C6 at a concrete input (the chip rectangle of one bbox). -/
theorem annotate_image_label_chip_above_box_witness :
    ∃ b ∈ [bbEx], ∃ lbl conf x1 y1,
      b.className = some lbl ∧ b.confidence = some conf ∧
      b.xmin = some x1 ∧ b.ymin = some y1 ∧
      ((2 : Int), (5 : Int)) = (x1, y1 - pyInt
        (((ctxEx.getTextSize (labelStrOf lbl conf)
            CV2_BBOX_FONT CV2_BBOX_FONT_SCALE 1).1.2 : ℚ) * (3/2))) ∧
      ((32 : Int), (20 : Int)) = (x1 + (ctxEx.getTextSize (labelStrOf lbl conf)
            CV2_BBOX_FONT CV2_BBOX_FONT_SCALE 1).1.1, y1) ∧
      (0 ≤ (ctxEx.getTextSize (labelStrOf lbl conf)
            CV2_BBOX_FONT CV2_BBOX_FONT_SCALE 1).1.2 → ((2 : Int), (5 : Int)).2 ≤ y1) :=
  annotate_image_label_chip_above_box ctxEx [imgEx] 0 [bbEx] dictEx
    (CvEvent.rect 2 (2, 5) (32, 20) (10, 20, 30) (-1)) 2 (2, 5) (32, 20) (10, 20, 30)
    (by rw [traceEx_eval]; simp) rfl

/-- C7: the confidence score is optional per bounding box: the label text
rendered by `annotate_image` is the bare class name when the bbox's
confidence value is `None`, and the class name followed by the confidence
formatted to two decimal places with a `%` sign otherwise. -/
theorem annotate_image_confidence_optional (ctx : CvCtx) (heap : Heap) (imgId : Nat)
    (bboxes : List BBoxDict) (class_colors_dict : List (String × Color))
    (e : CvEvent) (aid : Nat) (s : String) (org : Pt) (c : Color) (t : Int)
    (he : e ∈ traceOf (annotate_image ctx heap imgId bboxes class_colors_dict))
    (heq : e = CvEvent.text aid s org c t) :
    ∃ b ∈ bboxes, ∃ lbl conf,
      b.className = some lbl ∧ b.confidence = some conf ∧
      (conf = none → s = lbl) ∧
      ∀ q, conf = some q → s = lbl ++ ": " ++ format2 q ++ "%" := by
  subst heq
  obtain ⟨b, hb, heap0, j, r, hok, hmem⟩ :=
    annotate_trace_mem ctx heap imgId bboxes class_colors_dict _ he
  obtain ⟨lbl, x1, y1, x2, y2, conf, hcn, hx1f, hy1f, hx2f, hy2f, hcf, hr⟩ :=
    processBBox_ok_inv ctx class_colors_dict heap0 heap.length b j r hok
  subst hr
  rw [bboxStep_snd] at hmem
  simp only [List.mem_cons, List.not_mem_nil, or_false] at hmem
  rcases hmem with h1 | h2 | h3 | h4
  · exact absurd h1 (by simp)
  · exact absurd h2 (by simp)
  · simp only [CvEvent.text.injEq] at h3
    obtain ⟨-, hs, -, -, -⟩ := h3
    refine ⟨b, hb, lbl, conf, hcn, hcf, ?_, ?_⟩
    · intro hnone
      rw [hs, hnone]
      rfl
    · intro q hq
      rw [hs, hq]
      rfl
  · exact absurd h4 (by simp)

/-- Witness for C7 at a concrete input (the label text of one bbox, whose
confidence is present with value `None`). -/
theorem annotate_image_confidence_optional_witness :
    ∃ b ∈ [bbEx], ∃ lbl conf,
      b.className = some lbl ∧ b.confidence = some conf ∧
      (conf = none → "cup" = lbl) ∧
      ∀ q, conf = some q → "cup" = lbl ++ ": " ++ format2 q ++ "%" :=
  annotate_image_confidence_optional ctxEx [imgEx] 0 [bbEx] dictEx
    (CvEvent.text 2 "cup" (2, 15) (255, 255, 255) 1) 2 "cup" (2, 15) (255, 255, 255) 1
    (by rw [traceEx_eval]; simp) rfl

/-- C3: `get_class_color` returns exactly the stored color when the class
name is a key of the mapping; when it is absent it returns the fresh random
draws scaled by 255, and if each unit draw lies in `[0, 1)` then each
component of the synthesized color lies in `[0, 255)`.  (The mapping itself
is a pure value here: the source never assigns into it.) -/
theorem get_class_color_spec (class_colors_dict : List (String × Color))
    (class_str : String) (u : ℚ × ℚ × ℚ)
    (hu : (0 ≤ u.1 ∧ u.1 < 1) ∧ (0 ≤ u.2.1 ∧ u.2.1 < 1) ∧ (0 ≤ u.2.2 ∧ u.2.2 < 1)) :
    (∀ c, class_colors_dict.lookup class_str = some c →
      get_class_color class_colors_dict class_str u = c) ∧
    (class_colors_dict.lookup class_str = none →
      get_class_color class_colors_dict class_str u = (u.1 * 255, u.2.1 * 255, u.2.2 * 255) ∧
      (0 ≤ u.1 * 255 ∧ u.1 * 255 < 255) ∧
      (0 ≤ u.2.1 * 255 ∧ u.2.1 * 255 < 255) ∧
      (0 ≤ u.2.2 * 255 ∧ u.2.2 * 255 < 255)) := by
  obtain ⟨⟨h1, h2⟩, ⟨h3, h4⟩, h5, h6⟩ := hu
  constructor
  · intro c hc
    simp [get_class_color, hc]
  · intro hn
    refine ⟨by simp [get_class_color, hn], ⟨?_, ?_⟩, ⟨?_, ?_⟩, ⟨?_, ?_⟩⟩ <;> nlinarith

/-- Witness for C3 at a concrete input (a class name absent from the
mapping, unit draws `(1/4, 1/2, 3/4)`). -/
theorem get_class_color_spec_witness :
    get_class_color dictEx "bottle" (1/4, 1/2, 3/4) =
      ((1/4 : ℚ) * 255, (1/2 : ℚ) * 255, (3/4 : ℚ) * 255) ∧
    (0 ≤ (1/4 : ℚ) * 255 ∧ (1/4 : ℚ) * 255 < 255) ∧
    (0 ≤ (1/2 : ℚ) * 255 ∧ (1/2 : ℚ) * 255 < 255) ∧
    (0 ≤ (3/4 : ℚ) * 255 ∧ (3/4 : ℚ) * 255 < 255) :=
  (get_class_color_spec dictEx "bottle" (1/4, 1/2, 3/4) (by norm_num)).2 rfl

/-- C4: for every readable file whose contents parse to a well-formed
class-colors document (a mapping from text class names to RGB triples in
`[0, 255]`), `load_class_color_map` returns exactly that mapping: every key
is text and every value is an RGB triple of numbers in `[0, 255]`. -/
theorem load_class_color_map_shape (fileRead : String → Except PyErr String)
    (safe_load : String → Except PyErr Yaml) (path : String) (s : String) (d : Yaml)
    (hread : fileRead path = Except.ok s)
    (hparse : safe_load s = Except.ok d)
    (hwf : wellFormedColorMap d = true) :
    ∃ entries, load_class_color_map fileRead safe_load path = Except.ok (Yaml.yMap entries) ∧
      ∀ en ∈ entries, isTextKey en.1 = true ∧ isColorTriple en.2 = true := by
  cases d with
  | yStr s0 => simp [wellFormedColorMap] at hwf
  | yNum q0 => simp [wellFormedColorMap] at hwf
  | yNull => simp [wellFormedColorMap] at hwf
  | ySeq items => simp [wellFormedColorMap] at hwf
  | yMap entries =>
    refine ⟨entries, ?_, ?_⟩
    · simp [load_class_color_map, hread, hparse]
    · intro en hen
      simp only [wellFormedColorMap, List.all_eq_true] at hwf
      have := hwf en hen
      rw [Bool.and_eq_true] at this
      exact this

/-- A sample file system: every path reads to one line of YAML. -/
def fsEx : String → Except PyErr String := fun _ => Except.ok "cup: [255, 0, 0]"

/-- A sample parser result for that line. -/
def slEx : String → Except PyErr Yaml := fun _ =>
  Except.ok (Yaml.yMap [(Yaml.yStr "cup", Yaml.ySeq [Yaml.yNum 255, Yaml.yNum 0, Yaml.yNum 0])])

/-- Witness for C4 at a concrete input. -/
theorem load_class_color_map_shape_witness :
    ∃ entries, load_class_color_map fsEx slEx "cfg.yaml" = Except.ok (Yaml.yMap entries) ∧
      ∀ en ∈ entries, isTextKey en.1 = true ∧ isColorTriple en.2 = true :=
  load_class_color_map_shape fsEx slEx "cfg.yaml" "cup: [255, 0, 0]"
    (Yaml.yMap [(Yaml.yStr "cup", Yaml.ySeq [Yaml.yNum 255, Yaml.yNum 0, Yaml.yNum 0])])
    rfl rfl (by norm_num [wellFormedColorMap, isTextKey, isColorTriple])

/-- C5: `load_class_color_map` performs no error recovery: an open/read
error or a parse error is propagated unchanged to the caller, and no value
is returned in that case. -/
theorem load_class_color_map_error_propagation (fileRead : String → Except PyErr String)
    (safe_load : String → Except PyErr Yaml) (path : String) :
    (∀ e, fileRead path = Except.error e →
      load_class_color_map fileRead safe_load path = Except.error e) ∧
    (∀ s e, fileRead path = Except.ok s → safe_load s = Except.error e →
      load_class_color_map fileRead safe_load path = Except.error e) := by
  constructor
  · intro e he
    simp [load_class_color_map, he]
  · intro s e hs hse
    simp [load_class_color_map, hs, hse]

/-- A sample unreadable file system. -/
def fsErrEx : String → Except PyErr String := fun _ => Except.error (PyErr.ioError "unreadable")

/-- A sample parser that always fails. -/
def slErrEx : String → Except PyErr Yaml := fun _ => Except.error (PyErr.yamlError "malformed")

/-- Witness for C5 at concrete inputs: an unreadable file and a malformed
file each surface their own error. -/
theorem load_class_color_map_error_propagation_witness :
    load_class_color_map fsErrEx slEx "cfg.yaml" = Except.error (PyErr.ioError "unreadable") ∧
    load_class_color_map fsEx slErrEx "cfg.yaml" = Except.error (PyErr.yamlError "malformed") :=
  ⟨(load_class_color_map_error_propagation fsErrEx slEx "cfg.yaml").1
      (PyErr.ioError "unreadable") rfl,
   (load_class_color_map_error_propagation fsEx slErrEx "cfg.yaml").2
      "cup: [255, 0, 0]" (PyErr.yamlError "malformed") rfl rfl⟩
